import Mathlib

/-!
Shallow embedding of `content/management/commands/crawl_inductee_links.py`:
the link-preview enrichment pipeline (`Command.handle`, `Command.process_link`,
`Command.capture_screenshot_async`, `get_domain_from_url`), together with the
image-resizing semantics of `PIL.Image.thumbnail` and `PIL.Image.resize` that
the command calls.

Modelling conventions:
* Strings are Lean `String`s (sequences of Unicode scalar values), matching
  Python `str`; the Python slice `s[:249]` is `List.take 249` on the
  character list.
* The network is an oracle (`Env`): the outcome of each remote interaction
  the command performs for one record is a field of `Env`.  `FetchRes.http`
  carries the status code, the body size in bytes, and the parsed document
  (BeautifulSoup tolerates malformed HTML, so parsing itself is total).
* A Python `None` landing in a field is the inner `none` of an
  `Option (Option _)`; an expression that raises (slicing `None`,
  `Image.open` on undecodable bytes, a transport exception, a browser-launch
  failure) is an `Except` error that propagates to the `except` branch of
  `process_link`.
* Images are modelled by their pixel dimensions, the only attribute the
  verified properties depend on.
* Database rows are `LinkRecord`s; every `save()` the command issues is
  recorded as a `SaveEvent`, carrying the dimensions of the decoded source
  image when the save commits a freshly normalized image.
-/

/-- An image, reduced to its pixel dimensions. -/
structure Img where
  width : Nat
  height : Nat
deriving DecidableEq

/-- The result of BeautifulSoup parsing, restricted to the queries the
command makes.  Outer `Option`: is the tag present (`soup.find` and
`soup.title` truthiness); inner `Option`: `tag.get("content")` returns
`None` when the attribute is absent, and `soup.title.string` is `None` when
the `<title>` element has no single text child. -/
structure HtmlDoc where
  ogTitle : Option (Option String)
  ogDesc : Option (Option String)
  ogImage : Option (Option String)
  titleTag : Option (Option String)
deriving DecidableEq

/-- Failure classifications produced by `requests.get` followed by
`raise_for_status`: a transport-level exception, or an HTTP error status.
The command has no other fetch-failure class (in particular none for an
oversized body). -/
inductive FetchErr
  | transport
  | httpStatus (code : Nat)
deriving DecidableEq

/-- The remote side of `requests.get(link.url, ...)`: either the transport
fails (DNS, connect, timeout), or a response arrives with a status code, a
body of some byte size, and the document BeautifulSoup parses from it. -/
inductive FetchRes
  | transErr
  | http (status : Nat) (bodySize : Nat) (doc : HtmlDoc)
deriving DecidableEq

/-- The remote side of `requests.get(img_url, ...)`: transport failure, or a
response whose body `PIL.Image.open` either decodes (`some` dimensions) or
rejects with an exception (`none`). -/
inductive ImgFetchRes
  | transErr
  | http (status : Nat) (decoded : Option Img)
deriving DecidableEq

/-- Oracle for every external interaction `process_link` makes for one
record.  `renderedDoc` is the DOM of the fully rendered page as the headless
browser would see it after navigation; the command's fallback never queries
it (it only screenshots), and the field exists so that spec-level statements
about the rendered page can be expressed. -/
structure Env where
  pageFetch : FetchRes
  imgFetch : ImgFetchRes
  launchOk : Bool
  navOk : Bool
  renderedDoc : HtmlDoc
deriving DecidableEq

/-- A row of `InducteeOutboundLink`, restricted to the fields the command
touches.  `downloaded = true` models `downloaded_datetime` being set; `none`
elsewhere models a value not yet written.  `description` is doubly optional
because the command can store the Python value `None` in it. -/
structure LinkRecord where
  id : Nat
  url : String
  domain : Option String
  title : Option String
  description : Option (Option String)
  image : Option Img
  downloaded : Bool
deriving DecidableEq

/-- One database commit (`link.save()` or `link.asave()`).  `imgSrc` records
the dimensions of the decoded source image when this save commits a freshly
normalized image, and is `none` for the metadata-only save. -/
structure SaveEvent where
  state : LinkRecord
  imgSrc : Option Img
deriving DecidableEq

/-- The record state, commits and fallback flag accumulated by the body of
`process_link`'s `try` block, up to normal completion or up to the point at
which an exception is raised. -/
structure BodyOut where
  row : LinkRecord
  saves : List SaveEvent
  fallbackInvoked : Bool
deriving DecidableEq

/-- Observable outcome of one `process_link` call: final record state, the
list of commits, whether the Playwright fallback was entered, and whether
the `except` branch ran (an exception was caught and logged). -/
structure Outcome where
  row : LinkRecord
  saves : List SaveEvent
  fallbackInvoked : Bool
  raised : Bool
deriving DecidableEq

/-- Scan for the first `"//"` and return what follows; `urlparse` places the
network location after the `//` that follows the scheme. -/
def dropToSlashSlash : List Char → Option (List Char)
  | '/' :: '/' :: rest => some rest
  | _ :: rest => dropToSlashSlash rest
  | [] => none

/-- Take characters up to the first delimiter at which `urlparse` ends the
network location. -/
def takeHost : List Char → List Char
  | [] => []
  | c :: rest => if c = '/' ∨ c = '?' ∨ c = '#' then [] else c :: takeHost rest

/-- `urlparse(url).netloc` for the absolute URLs the command receives. -/
def netloc (url : String) : String :=
  match dropToSlashSlash url.data with
  | some rest => ⟨takeHost rest⟩
  | none => ""

/-- Python `str.replace("www.", "")`: delete every (left-to-right,
non-overlapping) occurrence of the substring `"www."`. -/
def stripWWW : List Char → List Char
  | 'w' :: 'w' :: 'w' :: '.' :: rest => stripWWW rest
  | c :: rest => c :: stripWWW rest
  | [] => []

/-- `get_domain_from_url` from the source: `urlparse(url).netloc` with every
occurrence of `"www."` removed. -/
def get_domain_from_url (url : String) : String :=
  ⟨stripWWW (netloc url).data⟩

/-- `response.raise_for_status()`: raises exactly for 4xx and 5xx codes. -/
def raise_for_status (status : Nat) : Except FetchErr Unit :=
  if 400 ≤ status ∧ status < 600 then .error (.httpStatus status) else .ok ()

/-- `requests.get(link.url, headers=..., timeout=15, allow_redirects=True)`
followed by `raise_for_status`: a transport exception or an HTTP error
status raises; otherwise the whole body is buffered — there is no size cap —
and handed to the parser. -/
def fetchPage : FetchRes → Except FetchErr (Nat × HtmlDoc)
  | .transErr => .error .transport
  | .http status bodySize doc =>
    match raise_for_status status with
    | .error e => .error e
    | .ok _ => .ok (bodySize, doc)

/-- The Python slice `s[:249]` on an actual string: its first 249
characters. -/
def pyTake249 (s : String) : String := ⟨s.data.take 249⟩

/-- The operand of the `[:249]` slice in the assignment
`link.title = (og_title.get("content") if og_title else
(soup.title.string if soup.title else ""))[:249]`:
`some` an actual Python string, or `none` for the Python value `None`. -/
def titleCandidate (doc : HtmlDoc) : Option String :=
  match doc.ogTitle with
  | some content => content
  | none =>
    match doc.titleTag with
    | some s => s
    | none => some ""

/-- The full title expression: slicing Python `None` raises `TypeError`. -/
def computeTitle (doc : HtmlDoc) : Except Unit String :=
  match titleCandidate doc with
  | none => .error ()
  | some s => .ok (pyTake249 s)

/-- `link.description = og_desc.get("content") if og_desc else ""`; the
inner `none` is the Python `None` stored when the tag lacks a `content`
attribute. -/
def computeDesc (doc : HtmlDoc) : Option String :=
  match doc.ogDesc with
  | some content => content
  | none => some ""

/-- Round `a / b` to the nearest integer, ties toward the floor — the choice
made by `round_aspect` inside `PIL.Image.thumbnail` (a `min` over floor and
ceiling by distance, floor listed first). -/
def roundNearest (a b : Nat) : Nat :=
  if 2 * (a % b) ≤ b then a / b else a / b + 1

/-- `img.thumbnail((600, 315), ...)` (PIL): a no-op when the image already
fits the box; otherwise shrink to the box preserving aspect ratio, rounding
the free dimension to the nearest integer and clamping it to at least 1.
PIL performs the aspect comparison in floating point; here it is exact. -/
def pilThumbnail (src : Img) : Img :=
  if src.width ≤ 600 ∧ src.height ≤ 315 then src
  else if 315 * src.width ≤ 600 * src.height then
    ⟨max (roundNearest (315 * src.width) src.height) 1, 315⟩
  else
    ⟨600, max (roundNearest (600 * src.height) src.width) 1⟩

/-- `img.resize((600, 315), ...)` (PIL): a forced resize to exactly the
target dimensions, whatever the source dimensions. -/
def pilResize (tw th : Nat) (_src : Img) : Img := ⟨tw, th⟩

/-- The screenshot Playwright produces: the browsing context is created with
`viewport={"width": 1200, "height": 630}` (default device scale factor 1)
and `page.screenshot` captures the viewport. -/
def screenshotImg : Img := ⟨1200, 630⟩

/-- The record as committed by the metadata `link.save()` in
`process_link`. -/
def withMetadata (link : LinkRecord) (doc : HtmlDoc) (t : String) : LinkRecord :=
  { link with
    domain := some (get_domain_from_url link.url)
    title := some t
    description := some (computeDesc doc) }

/-- The record as committed after a successful Open Graph image download:
thumbnail the decoded image and set `downloaded_datetime`. -/
def thumbCommit (l1 : LinkRecord) (src : Img) : LinkRecord :=
  { l1 with image := some (pilThumbnail src), downloaded := true }

/-- The record as committed by the fallback: the screenshot force-resized to
600×315, with `downloaded_datetime` set. -/
def shotCommit (l1 : LinkRecord) : LinkRecord :=
  { l1 with image := some (pilResize 600 315 screenshotImg), downloaded := true }

/-- Result of `asyncio.run(self.capture_screenshot_async(link))`: final
record state, commits, and whether an exception escaped.  Only
browser-launch and context-creation failures escape; navigation and
screenshot errors are caught by the inner `except`, which logs and saves
nothing (the `finally` closes the browser either way). -/
structure FallbackOut where
  row : LinkRecord
  saves : List SaveEvent
  raised : Bool
deriving DecidableEq

/-- `Command.capture_screenshot_async`: launch Chromium, open a 1200×630
context, `goto` with `wait_until="networkidle"` (30 s budget), wait 2 s,
screenshot the viewport, `resize((600, 315))`, re-encode as JPEG, save the
image field, set `downloaded_datetime`, `asave`. -/
def capture_screenshot_async (env : Env) (link : LinkRecord) : FallbackOut :=
  if env.launchOk then
    if env.navOk then
      ⟨shotCommit link, [⟨shotCommit link, some screenshotImg⟩], false⟩
    else ⟨link, [], false⟩
  else ⟨link, [], true⟩

/-- The Playwright section at the end of `process_link`'s `try` block: an
exception escaping `asyncio.run` becomes an `.error` for the outer
`except`. -/
def runFallback (env : Env) (link1 : LinkRecord) : Except BodyOut BodyOut :=
  let fb := capture_screenshot_async env link1
  if fb.raised then .error ⟨fb.row, ⟨link1, none⟩ :: fb.saves, true⟩
  else .ok ⟨fb.row, ⟨link1, none⟩ :: fb.saves, true⟩

/-- Steps 2 and 3 of `process_link` after the metadata save: check
`og:image` (tag present with truthy, i.e. non-empty, content), try to
download and thumbnail it, and otherwise fall through to the Playwright
fallback.  A transport exception during the image download, or undecodable
image bytes, raises past the fallback to the outer `except`; a non-200
status falls through to the fallback. -/
def ogImageStep (env : Env) (link1 : LinkRecord) (doc : HtmlDoc) :
    Except BodyOut BodyOut :=
  match doc.ogImage with
  | some (some c) =>
    if c = "" then runFallback env link1
    else
      match env.imgFetch with
      | .transErr => .error ⟨link1, [⟨link1, none⟩], false⟩
      | .http status decoded =>
        if status = 200 then
          match decoded with
          | none => .error ⟨link1, [⟨link1, none⟩], false⟩
          | some src =>
            .ok ⟨thumbCommit link1 src,
                 [⟨link1, none⟩, ⟨thumbCommit link1 src, some src⟩], false⟩
        else runFallback env link1
  | _ => runFallback env link1

/-- The body of `process_link`'s `try` block.  The in-memory assignment to
`link.domain` before the title expression has no database effect when the
title expression raises, so the raising branch carries the unchanged row. -/
def process_link_try (env : Env) (link : LinkRecord) : Except BodyOut BodyOut :=
  match fetchPage env.pageFetch with
  | .error _ => .error ⟨link, [], false⟩
  | .ok (_, doc) =>
    match computeTitle doc with
    | .error _ => .error ⟨link, [], false⟩
    | .ok t => ogImageStep env (withMetadata link doc t) doc

/-- The `except Exception` branch of `process_link`: a raising body is
logged and leaves the state as committed so far. -/
def mergeTry : Except BodyOut BodyOut → Outcome
  | .ok o => ⟨o.row, o.saves, o.fallbackInvoked, false⟩
  | .error o => ⟨o.row, o.saves, o.fallbackInvoked, true⟩

/-- `Command.process_link`: run the `try` body and absorb any exception. -/
def process_link (env : Env) (link : LinkRecord) : Outcome :=
  mergeTry (process_link_try env link)

/-- The queryset filter
`InducteeOutboundLink.objects.filter(downloaded_datetime__isnull=True)`. -/
def listPending (recs : List LinkRecord) : List LinkRecord :=
  recs.filter fun r => !r.downloaded

/-- `Command.handle`: iterate the pending queryset, calling `process_link`
on each selected record; rows with `downloaded_datetime` set are untouched.
`world` maps each record's URL to the behaviour of the outside world. -/
def handle (world : String → Env) : List LinkRecord → List LinkRecord
  | [] => []
  | r :: rs =>
    (if r.downloaded then r else (process_link (world r.url) r).row) ::
      handle world rs

/-- Decoded images have positive dimensions: a raster image with a zero
dimension is not decodable. -/
def envImgValidB (env : Env) : Bool :=
  match env.imgFetch with
  | .http _ (some img) => 1 ≤ img.width && 1 ≤ img.height
  | _ => true

/-- Modelled from the spec: the metadata extractor's title precedence
(`og:title` content, else `<title>` text, else empty), as the rendering
fallback is specified to evaluate it over the live DOM.  The command's
fallback has no counterpart of this computation. -/
def specExtractTitle (doc : HtmlDoc) : String :=
  match doc.ogTitle with
  | some (some c) => c
  | _ =>
    match doc.titleTag with
    | some (some t) => t
    | _ => ""

/-- If `a ≤ c * b` then rounding `a / b` to the nearest integer stays at or
below `c`. -/
theorem roundNearest_le (a b c : Nat) (hb : 0 < b) (h : a ≤ c * b) :
    roundNearest a b ≤ c := by
  have hdm : b * (a / b) + a % b = a := Nat.div_add_mod a b
  have hmod : a % b < b := Nat.mod_lt a hb
  have hdiv : a / b ≤ c := by
    have h2 : a / b ≤ c * b / b := Nat.div_le_div_right h
    rwa [Nat.mul_div_cancel c hb] at h2
  unfold roundNearest
  by_cases hbr : 2 * (a % b) ≤ b
  · simp only [if_pos hbr]
    exact hdiv
  · simp only [if_neg hbr]
    rcases Nat.lt_or_ge (a / b) c with hlt | hge
    · exact hlt
    · exfalso
      have heq : a / b = c := Nat.le_antisymm hdiv hge
      rw [heq, Nat.mul_comm] at hdm
      obtain ⟨m, r, h1, h2, h3, h4⟩ :
          ∃ m r, m + r = a ∧ a ≤ m ∧ r < b ∧ ¬ 2 * r ≤ b := by
        refine ⟨c * b, a % b, hdm, h, hmod, hbr⟩
      omega

/-- Rounding to the nearest multiple moves the numerator by less than one
denominator in either direction. -/
theorem roundNearest_mul_bounds (a b : Nat) (hb : 0 < b) :
    roundNearest a b * b ≤ a + b ∧ a ≤ roundNearest a b * b + b := by
  have hdm : b * (a / b) + a % b = a := Nat.div_add_mod a b
  have hmod : a % b < b := Nat.mod_lt a hb
  unfold roundNearest
  by_cases hbr : 2 * (a % b) ≤ b
  · simp only [if_pos hbr]
    constructor
    · calc a / b * b = b * (a / b) := Nat.mul_comm _ _
        _ ≤ b * (a / b) + a % b := Nat.le_add_right _ _
        _ = a := hdm
        _ ≤ a + b := Nat.le_add_right _ _
    · calc a = b * (a / b) + a % b := hdm.symm
        _ ≤ b * (a / b) + b := Nat.add_le_add_left (Nat.le_of_lt hmod) _
        _ = a / b * b + b := by rw [Nat.mul_comm]
  · simp only [if_neg hbr]
    constructor
    · calc (a / b + 1) * b = b * (a / b) + b := by ring
        _ ≤ (b * (a / b) + a % b) + b := by
            exact Nat.add_le_add_right (Nat.add_le_add_left (Nat.zero_le _) _) _
        _ = a + b := by rw [hdm]
    · calc a = b * (a / b) + a % b := hdm.symm
        _ ≤ b * (a / b) + b := Nat.add_le_add_left (Nat.le_of_lt hmod) _
        _ = (a / b + 1) * b := by ring
        _ ≤ (a / b + 1) * b + b := Nat.le_add_right _ _

/-- The dimension bounds of `PIL.Image.thumbnail` at box 600×315: the output
fits the box, never exceeds the source in either dimension, and its cross
products with the source differ by at most the larger source side (aspect
ratio preserved up to rounding). -/
theorem pilThumbnail_spec (s : Img) (hw : 1 ≤ s.width) (hh : 1 ≤ s.height) :
    (pilThumbnail s).width ≤ 600 ∧ (pilThumbnail s).height ≤ 315 ∧
    (pilThumbnail s).width ≤ s.width ∧ (pilThumbnail s).height ≤ s.height ∧
    (pilThumbnail s).width * s.height ≤
      (pilThumbnail s).height * s.width + max s.width s.height ∧
    (pilThumbnail s).height * s.width ≤
      (pilThumbnail s).width * s.height + max s.width s.height := by
  have hmaxw : s.width ≤ max s.width s.height := Nat.le_max_left _ _
  have hmaxh : s.height ≤ max s.width s.height := Nat.le_max_right _ _
  unfold pilThumbnail
  by_cases hfit : s.width ≤ 600 ∧ s.height ≤ 315
  · simp only [if_pos hfit]
    refine ⟨hfit.1, hfit.2, Nat.le_refl _, Nat.le_refl _, ?_, ?_⟩
    · rw [Nat.mul_comm]; exact Nat.le_add_right _ _
    · rw [Nat.mul_comm]; exact Nat.le_add_right _ _
  · simp only [if_neg hfit]
    by_cases hbr : 315 * s.width ≤ 600 * s.height
    · simp only [if_pos hbr]
      have hh316 : 316 ≤ s.height := by omega
      have hbpos : 0 < s.height := by omega
      have hrb := roundNearest_mul_bounds (315 * s.width) s.height hbpos
      have hle600 : roundNearest (315 * s.width) s.height ≤ 600 :=
        roundNearest_le _ _ _ hbpos (by omega)
      have hlew : roundNearest (315 * s.width) s.height ≤ s.width := by
        refine roundNearest_le _ _ _ hbpos ?_
        calc 315 * s.width ≤ s.height * s.width :=
              Nat.mul_le_mul_right s.width (by omega)
          _ = s.width * s.height := Nat.mul_comm _ _
      refine ⟨?_, Nat.le_refl _, ?_, by omega, ?_, ?_⟩
      · exact Nat.max_le.mpr ⟨hle600, by omega⟩
      · exact Nat.max_le.mpr ⟨hlew, hw⟩
      · rcases Nat.eq_zero_or_pos (roundNearest (315 * s.width) s.height) with hz | hp
        · rw [hz]
          have h0 : 315 * s.width ≤ s.height := by
            have := hrb.2
            rw [hz] at this
            simpa using this
          calc max 0 1 * s.height = s.height := by simp
            _ ≤ max s.width s.height := hmaxh
            _ ≤ 315 * s.width + max s.width s.height := Nat.le_add_left _ _
        · rw [Nat.max_eq_left hp]
          calc roundNearest (315 * s.width) s.height * s.height
              ≤ 315 * s.width + s.height := hrb.1
            _ ≤ 315 * s.width + max s.width s.height :=
                Nat.add_le_add_left hmaxh _
      · rcases Nat.eq_zero_or_pos (roundNearest (315 * s.width) s.height) with hz | hp
        · rw [hz]
          have h0 : 315 * s.width ≤ s.height := by
            have := hrb.2
            rw [hz] at this
            simpa using this
          calc 315 * s.width ≤ s.height := h0
            _ = max 0 1 * s.height := by simp
            _ ≤ max 0 1 * s.height + max s.width s.height := Nat.le_add_right _ _
        · rw [Nat.max_eq_left hp]
          calc 315 * s.width
              ≤ roundNearest (315 * s.width) s.height * s.height + s.height :=
                hrb.2
            _ ≤ roundNearest (315 * s.width) s.height * s.height +
                  max s.width s.height := Nat.add_le_add_left hmaxh _
    · simp only [if_neg hbr]
      have hw601 : 601 ≤ s.width := by omega
      have hbpos : 0 < s.width := by omega
      have hrb := roundNearest_mul_bounds (600 * s.height) s.width hbpos
      have hle315 : roundNearest (600 * s.height) s.width ≤ 315 :=
        roundNearest_le _ _ _ hbpos (by omega)
      have hleh : roundNearest (600 * s.height) s.width ≤ s.height := by
        refine roundNearest_le _ _ _ hbpos ?_
        calc 600 * s.height ≤ s.width * s.height :=
              Nat.mul_le_mul_right s.height (by omega)
          _ = s.height * s.width := Nat.mul_comm _ _
      refine ⟨Nat.le_refl _, ?_, by omega, ?_, ?_, ?_⟩
      · exact Nat.max_le.mpr ⟨hle315, by omega⟩
      · exact Nat.max_le.mpr ⟨hleh, hh⟩
      · rcases Nat.eq_zero_or_pos (roundNearest (600 * s.height) s.width) with hz | hp
        · rw [hz]
          have h0 : 600 * s.height ≤ s.width := by
            have := hrb.2
            rw [hz] at this
            simpa using this
          calc 600 * s.height ≤ s.width := h0
            _ = max 0 1 * s.width := by simp
            _ ≤ max 0 1 * s.width + max s.width s.height := Nat.le_add_right _ _
        · rw [Nat.max_eq_left hp]
          calc 600 * s.height
              ≤ roundNearest (600 * s.height) s.width * s.width + s.width :=
                hrb.2
            _ ≤ roundNearest (600 * s.height) s.width * s.width +
                  max s.width s.height := Nat.add_le_add_left hmaxw _
      · rcases Nat.eq_zero_or_pos (roundNearest (600 * s.height) s.width) with hz | hp
        · rw [hz]
          calc max 0 1 * s.width = s.width := by simp
            _ ≤ max s.width s.height := hmaxw
            _ ≤ 600 * s.height + max s.width s.height := Nat.le_add_left _ _
        · rw [Nat.max_eq_left hp]
          calc roundNearest (600 * s.height) s.width * s.width
              ≤ 600 * s.height + s.width := hrb.1
            _ ≤ 600 * s.height + max s.width s.height :=
                Nat.add_le_add_left hmaxw _

/-- Exhaustive outcome shapes of the post-metadata step: image-download
exception, successful thumbnail commit, screenshot commit, silent fallback
failure, or fallback launch failure. -/
theorem ogImageStep_cases (env : Env) (l1 : LinkRecord) (doc : HtmlDoc) :
    mergeTry (ogImageStep env l1 doc) = ⟨l1, [⟨l1, none⟩], false, true⟩ ∨
    (∃ status src, env.imgFetch = .http status (some src) ∧
      mergeTry (ogImageStep env l1 doc) =
        ⟨thumbCommit l1 src, [⟨l1, none⟩, ⟨thumbCommit l1 src, some src⟩],
          false, false⟩) ∨
    mergeTry (ogImageStep env l1 doc) =
      ⟨shotCommit l1, [⟨l1, none⟩, ⟨shotCommit l1, some screenshotImg⟩],
        true, false⟩ ∨
    mergeTry (ogImageStep env l1 doc) = ⟨l1, [⟨l1, none⟩], true, false⟩ ∨
    mergeTry (ogImageStep env l1 doc) = ⟨l1, [⟨l1, none⟩], true, true⟩ := by
  have hfb :
      mergeTry (runFallback env l1) =
        ⟨shotCommit l1, [⟨l1, none⟩, ⟨shotCommit l1, some screenshotImg⟩],
          true, false⟩ ∨
      mergeTry (runFallback env l1) = ⟨l1, [⟨l1, none⟩], true, false⟩ ∨
      mergeTry (runFallback env l1) = ⟨l1, [⟨l1, none⟩], true, true⟩ := by
    unfold runFallback capture_screenshot_async
    rcases hla : env.launchOk with _ | _
    · simp [mergeTry]
    · rcases hna : env.navOk with _ | _
      · simp [mergeTry]
      · simp [mergeTry]
  have hfb' :
      ogImageStep env l1 doc = runFallback env l1 →
      mergeTry (ogImageStep env l1 doc) =
        ⟨shotCommit l1, [⟨l1, none⟩, ⟨shotCommit l1, some screenshotImg⟩],
          true, false⟩ ∨
      mergeTry (ogImageStep env l1 doc) = ⟨l1, [⟨l1, none⟩], true, false⟩ ∨
      mergeTry (ogImageStep env l1 doc) = ⟨l1, [⟨l1, none⟩], true, true⟩ := by
    intro h
    rw [h]
    exact hfb
  rcases hog : doc.ogImage with _ | oc
  · have h := hfb' (by simp [ogImageStep, hog])
    tauto
  · rcases oc with _ | c
    · have h := hfb' (by simp [ogImageStep, hog])
      tauto
    · by_cases hc : c = ""
      · have h := hfb' (by simp [ogImageStep, hog, hc])
        tauto
      · rcases him : env.imgFetch with _ | ⟨st, dec⟩
        · left
          simp [ogImageStep, hog, hc, him, mergeTry]
        · by_cases h200 : st = 200
          · rcases dec with _ | src
            · left
              simp [ogImageStep, hog, hc, him, h200, mergeTry]
            · right; left
              refine ⟨st, src, rfl, ?_⟩
              simp [ogImageStep, hog, hc, him, h200, mergeTry]
          · have h := hfb' (by simp [ogImageStep, hog, hc, him, h200])
            tauto

/-- Exhaustive outcome shapes of `process_link`: either the fetch or the
title expression raised before any commit, or the metadata commit happened
and the outcome is that of the post-metadata step. -/
theorem process_link_cases (env : Env) (link : LinkRecord) :
    process_link env link = ⟨link, [], false, true⟩ ∨
    ∃ status bodySize doc t,
      env.pageFetch = .http status bodySize doc ∧
      ¬(400 ≤ status ∧ status < 600) ∧
      computeTitle doc = .ok t ∧
      process_link env link =
        mergeTry (ogImageStep env (withMetadata link doc t) doc) := by
  rcases hpf : env.pageFetch with _ | ⟨st, sz, doc⟩
  · left
    simp [process_link, process_link_try, fetchPage, hpf, mergeTry]
  · by_cases hst : 400 ≤ st ∧ st < 600
    · left
      simp [process_link, process_link_try, fetchPage, hpf, raise_for_status,
        hst, mergeTry]
    · rcases hct : computeTitle doc with e | t
      · left
        simp [process_link, process_link_try, fetchPage, hpf, raise_for_status,
          hst, hct, mergeTry]
      · right
        refine ⟨st, sz, doc, t, rfl, hst, hct, ?_⟩
        simp [process_link, process_link_try, fetchPage, hpf, raise_for_status,
          hst, hct]

/-- The post-metadata step never changes the metadata fields committed by
the first `link.save()`. -/
theorem ogImageStep_meta (env : Env) (l1 : LinkRecord) (doc : HtmlDoc) :
    (mergeTry (ogImageStep env l1 doc)).row.title = l1.title ∧
    (mergeTry (ogImageStep env l1 doc)).row.domain = l1.domain ∧
    (mergeTry (ogImageStep env l1 doc)).row.description = l1.description := by
  rcases ogImageStep_cases env l1 doc with h | ⟨s, src, _, h⟩ | h | h | h <;>
    rw [h] <;> simp [thumbCommit, shotCommit]

/-- `handle` is the per-record map induced by the pending filter. -/
theorem handle_eq_map (world : String → Env) (recs : List LinkRecord) :
    handle world recs =
      recs.map fun r =>
        if r.downloaded then r else (process_link (world r.url) r).row := by
  induction recs with
  | nil => rfl
  | cons r rs ih => simp [handle, ih]

/-- A parsed document with no Open Graph tags and no `<title>` element. -/
def emptyDoc : HtmlDoc := ⟨none, none, none, none⟩

/-- A freshly created pending record. -/
def linkC1 : LinkRecord :=
  ⟨1, "http://unreachable.example/", none, none, none, none, false⟩

/-- A world in which the initial page fetch raises a transport error. -/
def envC1 : Env := ⟨.transErr, .transErr, true, true, emptyDoc⟩

/-- Claim C1, counterexample: a pending record whose initial page fetch
fails with a transport error is abandoned for the run — the exception is
caught by `except`, the Playwright fallback is never invoked, and the record
is unchanged — contrary to the claim that the fallback is invoked. -/
theorem crawl_C1_cex :
    (process_link envC1 linkC1).fallbackInvoked = false ∧
    (process_link envC1 linkC1).raised = true ∧
    (process_link envC1 linkC1).row = linkC1 :=
  ⟨rfl, rfl, rfl⟩

/-- Claim C1, amended: whenever the initial page fetch fails (transport
error, timeout, or an HTTP error status raised by `raise_for_status`),
`process_link` catches the exception, performs neither the lightweight path
nor the rendering fallback, and leaves the record untouched and pending for
a future run. -/
theorem crawl_C1 (env : Env) (link : LinkRecord) (e : FetchErr)
    (h : fetchPage env.pageFetch = .error e) :
    process_link env link = ⟨link, [], false, true⟩ := by
  simp [process_link, process_link_try, h, mergeTry]

/-- A world in which the initial page fetch returns a 404. -/
def envC1w : Env := ⟨.http 404 7 emptyDoc, .transErr, true, true, emptyDoc⟩

/-- Witness for the amended C1 at a concrete 404 response. -/
theorem crawl_C1_witness :
    process_link envC1w linkC1 = ⟨linkC1, [], false, true⟩ :=
  crawl_C1 envC1w linkC1 (.httpStatus 404) rfl

/-- The static HTML served for the C2 scenario: an `og:title` but no
`og:image`, forcing the fallback. -/
def docStatic : HtmlDoc :=
  ⟨some (some ("Static title")), none, none, none⟩

/-- The live DOM of the same page after rendering: its own title,
description, and a fetchable `og:image`. -/
def renderedC2 : HtmlDoc :=
  ⟨some (some ("Rendered title")), some (some ("Rendered description")),
   some (some ("https://site.example/og.jpg")), none⟩

/-- A pending record for the C2 scenario. -/
def linkC2 : LinkRecord :=
  ⟨2, "https://site.example/page", none, none, none, none, false⟩

/-- A world where the page fetch succeeds, the fallback navigation succeeds,
and the rendered DOM differs from the static HTML. -/
def envC2 : Env :=
  ⟨.http 200 512 docStatic, .http 200 (some ⟨800, 400⟩), true, true,
   renderedC2⟩

/-- Claim C2, counterexample: the fallback runs with successful navigation
over a page whose live DOM carries its own `og:title` and a fetchable
`og:image`, yet the command keeps the statically scraped title and commits a
600×315 screenshot — it never evaluates the extractor in the page and never
fetches `og:image` through the browser. -/
theorem crawl_C2_cex :
    (process_link envC2 linkC2).fallbackInvoked = true ∧
    envC2.navOk = true ∧
    specExtractTitle envC2.renderedDoc = "Rendered title" ∧
    (process_link envC2 linkC2).row.title = some ("Static title") ∧
    (process_link envC2 linkC2).row.title ≠
      some (specExtractTitle envC2.renderedDoc) ∧
    (process_link envC2 linkC2).row.image = some ⟨600, 315⟩ :=
  ⟨rfl, rfl, rfl, rfl, by decide, rfl⟩

/-- Claim C2, amended: when the rendering fallback runs and navigation
succeeds, it extracts nothing from the live DOM — title, description and
domain keep the values stored before the fallback — and it unconditionally
captures a viewport screenshot, force-resized to exactly 600×315, as the
image, setting the completion timestamp. -/
theorem crawl_C2 (env : Env) (link : LinkRecord)
    (hl : env.launchOk = true) (hn : env.navOk = true) :
    (capture_screenshot_async env link).row.title = link.title ∧
    (capture_screenshot_async env link).row.description = link.description ∧
    (capture_screenshot_async env link).row.domain = link.domain ∧
    (capture_screenshot_async env link).row.image =
      some (pilResize 600 315 screenshotImg) ∧
    pilResize 600 315 screenshotImg = ⟨600, 315⟩ ∧
    (capture_screenshot_async env link).row.downloaded = true ∧
    (capture_screenshot_async env link).raised = false := by
  simp [capture_screenshot_async, hl, hn, shotCommit, pilResize]

/-- Witness for the amended C2 at the concrete C2 world. -/
theorem crawl_C2_witness :
    (capture_screenshot_async envC2 linkC2).row.title = linkC2.title ∧
    (capture_screenshot_async envC2 linkC2).row.description =
      linkC2.description ∧
    (capture_screenshot_async envC2 linkC2).row.domain = linkC2.domain ∧
    (capture_screenshot_async envC2 linkC2).row.image =
      some (pilResize 600 315 screenshotImg) ∧
    pilResize 600 315 screenshotImg = ⟨600, 315⟩ ∧
    (capture_screenshot_async envC2 linkC2).row.downloaded = true ∧
    (capture_screenshot_async envC2 linkC2).raised = false :=
  crawl_C2 envC2 linkC2 rfl rfl

/-- Claim C3: at every commit and in the final state, a set completion
timestamp comes with a stored image, and a caught exception leaves the
record pending. -/
theorem crawl_C3 (env : Env) (link : LinkRecord)
    (hpend : link.downloaded = false) :
    (∀ ev ∈ (process_link env link).saves,
      ev.state.downloaded = true → ev.state.image.isSome = true) ∧
    ((process_link env link).row.downloaded = true →
      (process_link env link).row.image.isSome = true) ∧
    ((process_link env link).raised = true →
      (process_link env link).row.downloaded = false) := by
  rcases process_link_cases env link with h | ⟨st, sz, doc, t, hpf, hst, hct, h⟩
  · rw [h]
    refine ⟨by simp, by simp [hpend], fun _ => hpend⟩
  · rw [h]
    have hl1 : (withMetadata link doc t).downloaded = false := hpend
    rcases ogImageStep_cases env (withMetadata link doc t) doc with
      h2 | ⟨s, src, _, h2⟩ | h2 | h2 | h2 <;> rw [h2] <;>
      simp [withMetadata, thumbCommit, shotCommit, hpend]

/-- The document for the C3 witness: a page with a working `og:image`. -/
def docC3 : HtmlDoc :=
  ⟨some (some ("T")), none, some (some ("https://x.example/i.jpg")), none⟩

/-- A pending record for the C3 witness. -/
def linkC3 : LinkRecord :=
  ⟨3, "https://x.example/", none, none, none, none, false⟩

/-- A world where the lightweight path succeeds end to end. -/
def envC3 : Env :=
  ⟨.http 200 100 docC3, .http 200 (some ⟨2000, 1000⟩), true, true, emptyDoc⟩

/-- Witness for C3: in a successful run the committed timestamp indeed comes
with a stored image. -/
theorem crawl_C3_witness :
    (process_link envC3 linkC3).row.image.isSome = true :=
  (crawl_C3 envC3 linkC3 rfl).2.1 rfl

/-- Claim C4: `handle` maps each record through the pending filter — a
record with the timestamp set is returned unchanged (no processing), and a
record left pending by a failed run is selected by the next run's pending
filter. -/
theorem crawl_C4 (world : String → Env) (recs : List LinkRecord) :
    handle world recs =
      (recs.map fun r =>
        if r.downloaded then r else (process_link (world r.url) r).row) ∧
    (∀ r ∈ recs, r.downloaded = true → r ∈ handle world recs) ∧
    (∀ r ∈ recs, r.downloaded = false →
      (process_link (world r.url) r).row.downloaded = false →
      (process_link (world r.url) r).row ∈ listPending (handle world recs)) := by
  refine ⟨handle_eq_map world recs, ?_, ?_⟩
  · intro r hr hd
    rw [handle_eq_map world recs]
    have h := List.mem_map_of_mem
      (fun r => if r.downloaded then r else (process_link (world r.url) r).row) hr
    simpa [hd] using h
  · intro r hr hd hpd
    rw [handle_eq_map world recs, listPending, List.mem_filter]
    constructor
    · have h := List.mem_map_of_mem
        (fun r => if r.downloaded then r else (process_link (world r.url) r).row) hr
      simpa [hd] using h
    · simp [hpd]

/-- A record already enriched in a previous run. -/
def doneRec : LinkRecord :=
  ⟨4, "https://done.example/", some ("done.example"), some ("t"),
   some (some ("d")), some ⟨600, 315⟩, true⟩

/-- A pending record whose processing will fail. -/
def linkC4 : LinkRecord :=
  ⟨5, "http://flaky.example/", none, none, none, none, false⟩

/-- A world in which every fetch raises a transport error. -/
def envC4 : Env := ⟨.transErr, .transErr, true, true, emptyDoc⟩

/-- The world function for the C4 witness. -/
def worldC4 : String → Env := fun _ => envC4

/-- Witness for C4 on a concrete two-record queue: the finished record
passes through unchanged and the failed record is pending again. -/
theorem crawl_C4_witness :
    doneRec ∈ handle worldC4 [doneRec, linkC4] ∧
    (process_link (worldC4 linkC4.url) linkC4).row ∈
      listPending (handle worldC4 [doneRec, linkC4]) :=
  ⟨(crawl_C4 worldC4 [doneRec, linkC4]).2.1 doneRec (by simp) rfl,
   (crawl_C4 worldC4 [doneRec, linkC4]).2.2 linkC4 (by simp) rfl rfl⟩

/-- Claim C5: every image commit the pipeline performs stores an image that
fits the 600×315 box, never exceeds its decoded source in either dimension,
and preserves the source's aspect ratio up to rounding (cross products differ
by at most the larger source side). -/
theorem crawl_C5 (env : Env) (link : LinkRecord)
    (hval : envImgValidB env = true) :
    ∀ ev ∈ (process_link env link).saves, ∀ src, ev.imgSrc = some src →
      ev.state.image.isSome = true ∧
      ∀ out, ev.state.image = some out →
        out.width ≤ 600 ∧ out.height ≤ 315 ∧
        out.width ≤ src.width ∧ out.height ≤ src.height ∧
        out.width * src.height ≤
          out.height * src.width + max src.width src.height ∧
        out.height * src.width ≤
          out.width * src.height + max src.width src.height := by
  intro ev hev src hsrc
  rcases process_link_cases env link with h | ⟨st, sz, doc, t, hpf, hst, hct, h⟩
  · rw [h] at hev
    simp at hev
  · rw [h] at hev
    rcases ogImageStep_cases env (withMetadata link doc t) doc with
      h2 | ⟨s, src', hif, h2⟩ | h2 | h2 | h2 <;> rw [h2] at hev
    · simp at hev
      rw [hev] at hsrc
      simp at hsrc
    · simp at hev
      rcases hev with hev | hev
      · rw [hev] at hsrc
        simp at hsrc
      · rw [hev] at hsrc ⊢
        have hs : src = src' := by
          have h3 := hsrc
          simp at h3
          exact h3.symm
        subst hs
        have hv : 1 ≤ src.width ∧ 1 ≤ src.height := by
          simp [envImgValidB, hif] at hval
          exact hval
        refine ⟨by simp [thumbCommit], ?_⟩
        intro out hout
        simp [thumbCommit] at hout
        subst hout
        exact pilThumbnail_spec src hv.1 hv.2
    · simp at hev
      rcases hev with hev | hev
      · rw [hev] at hsrc
        simp at hsrc
      · rw [hev] at hsrc ⊢
        have hs : src = screenshotImg := by
          have h3 := hsrc
          simp at h3
          exact h3.symm
        subst hs
        refine ⟨by simp [shotCommit], ?_⟩
        intro out hout
        simp [shotCommit, pilResize] at hout
        subst hout
        decide
    · simp at hev
      rw [hev] at hsrc
      simp at hsrc
    · simp at hev
      rw [hev] at hsrc
      simp at hsrc

/-- Witness for C5: in a successful run with a 2000×1000 source, the second
commit stores an image. -/
theorem crawl_C5_witness :
    ((process_link envC3 linkC3).saves.getD 1
      ⟨linkC3, none⟩).state.image.isSome = true := by
  have hval : envImgValidB envC3 = true := rfl
  have hev : (process_link envC3 linkC3).saves.getD 1 ⟨linkC3, none⟩ ∈
      (process_link envC3 linkC3).saves := by decide
  exact (crawl_C5 envC3 linkC3 hval _ hev ⟨2000, 1000⟩ (by decide)).1

/-- The failing document for C6: an HTML page whose `<title>` element is
present but empty (so `soup.title.string` is Python `None`) and which has no
Open Graph tags. -/
def docC6 : HtmlDoc := ⟨none, none, none, some none⟩

/-- A pending record for the C6 failing input. -/
def linkC6 : LinkRecord :=
  ⟨6, "https://empty-title.example/", none, none, none, none, false⟩

/-- A world serving the C6 document successfully. -/
def envC6 : Env := ⟨.http 200 30 docC6, .transErr, true, true, emptyDoc⟩

/-- Claim C6, the failing input evaluated: for a fetched document with an
empty `<title>` element and no Open Graph tags, the slice `(...)[:249]` is
applied to Python `None` and raises `TypeError`; the record is abandoned
with no title stored, where the claim requires the empty string to be
stored. -/
theorem crawl_C6_bug :
    titleCandidate docC6 = none ∧
    computeTitle docC6 = .error () ∧
    (process_link envC6 linkC6).raised = true ∧
    (process_link envC6 linkC6).row = linkC6 ∧
    (process_link envC6 linkC6).row.title = none :=
  ⟨rfl, rfl, rfl, rfl, rfl⟩

/-- A pending record whose URL's host contains `"www."` away from the
front. -/
def linkC7 : LinkRecord :=
  ⟨7, "http://zwww.example.com/page", none, none, none, none, false⟩

/-- A world in which the C7 record's fetch raises a transport error. -/
def envC7 : Env := ⟨.transErr, .transErr, true, true, emptyDoc⟩

/-- Claim C7, counterexample: `replace("www.", "")` deletes the substring
everywhere, not only as a leading prefix, so host `zwww.example.com` is
mangled to `zexample.com`; and the domain is not stored at the start of
processing — after a failed fetch it is still unset. -/
theorem crawl_C7_cex :
    get_domain_from_url ("http://zwww.example.com/page") = "zexample.com" ∧
    ("zexample.com" : String) ≠ "zwww.example.com" ∧
    (process_link envC7 linkC7).row.domain = none :=
  ⟨rfl, by decide, rfl⟩

/-- Claim C7, amended: the spec's two examples hold, but the stored domain
is the URL's netloc with every occurrence of the substring `"www."` deleted
(non-leading occurrences included), and it is stored only when the initial
fetch and the title expression succeed — on a failed fetch the domain keeps
its previous (unset) value. -/
theorem crawl_C7 (env : Env) (link : LinkRecord) :
    get_domain_from_url ("https://www.example.com/a/b") = "example.com" ∧
    get_domain_from_url ("http://sub.example.org") = "sub.example.org" ∧
    (∀ e, fetchPage env.pageFetch = .error e →
      (process_link env link).row.domain = link.domain) ∧
    (∀ status bodySize doc t, env.pageFetch = .http status bodySize doc →
      ¬(400 ≤ status ∧ status < 600) → computeTitle doc = .ok t →
      (process_link env link).row.domain =
        some (get_domain_from_url link.url)) := by
  refine ⟨rfl, rfl, ?_, ?_⟩
  · intro e he
    simp [process_link, process_link_try, he, mergeTry]
  · intro st sz doc t hpf hst hct
    have heq : process_link env link =
        mergeTry (ogImageStep env (withMetadata link doc t) doc) := by
      simp [process_link, process_link_try, fetchPage, hpf, raise_for_status,
        hst, hct]
    rw [heq, (ogImageStep_meta env (withMetadata link doc t) doc).2.1]
    rfl

/-- Witness for the amended C7: the leading-prefix example, and a concrete
failed fetch leaving the domain unset. -/
theorem crawl_C7_witness :
    get_domain_from_url ("https://www.example.com/a/b") = "example.com" ∧
    (process_link envC7 linkC7).row.domain = none :=
  ⟨(crawl_C7 envC7 linkC7).1, (crawl_C7 envC7 linkC7).2.2.1 .transport rfl⟩

/-- Claim C8: `handle` yields one outcome per input row, each selected row's
outcome depends only on that row's own processing, and a raising
`process_link` body is absorbed into a logged outcome rather than
propagating. -/
theorem crawl_C8 (world : String → Env) (recs : List LinkRecord) :
    (handle world recs).length = recs.length ∧
    (∀ i (h1 : i < recs.length) (h2 : i < (handle world recs).length),
      (handle world recs).get ⟨i, h2⟩ =
        if (recs.get ⟨i, h1⟩).downloaded then recs.get ⟨i, h1⟩
        else (process_link (world (recs.get ⟨i, h1⟩).url)
          (recs.get ⟨i, h1⟩)).row) ∧
    (∀ env link o, process_link_try env link = .error o →
      process_link env link = ⟨o.row, o.saves, o.fallbackInvoked, true⟩) := by
  refine ⟨?_, ?_, ?_⟩
  · rw [handle_eq_map]
    exact List.length_map _ _
  · induction recs with
    | nil =>
      intro i h1 h2
      exact absurd h1 (Nat.not_lt_zero i)
    | cons r rs ih =>
      intro i h1 h2
      cases i with
      | zero => rfl
      | succ n =>
        exact ih n (Nat.lt_of_succ_lt_succ h1) (Nat.lt_of_succ_lt_succ h2)
  · intro env link o h
    simp [process_link, h, mergeTry]

/-- First record of the C8 witness queue. -/
def linkC8a : LinkRecord := ⟨8, "http://a.example/", none, none, none, none, false⟩

/-- Second record of the C8 witness queue. -/
def linkC8b : LinkRecord := ⟨9, "http://b.example/", none, none, none, none, false⟩

/-- A world where every interaction raises. -/
def envC8 : Env := ⟨.transErr, .transErr, true, true, emptyDoc⟩

/-- The world function for the C8 witness. -/
def worldC8 : String → Env := fun _ => envC8

/-- Witness for C8: a two-record queue where the first record's processing
raises still yields outcomes for both records, and the raising body is
absorbed into a logged outcome. -/
theorem crawl_C8_witness :
    (handle worldC8 [linkC8a, linkC8b]).length = 2 ∧
    process_link envC8 linkC8a = ⟨linkC8a, [], false, true⟩ := by
  constructor
  · have h := (crawl_C8 worldC8 [linkC8a, linkC8b]).1
    simpa using h
  · exact (crawl_C8 worldC8 [linkC8a, linkC8b]).2.2 envC8 linkC8a
      ⟨linkC8a, [], false⟩ rfl

/-- The body size of the C9 oversized response, one terabyte. -/
def bigBody : Nat := 1000000000000

/-- A pending record served the oversized response. -/
def linkC9 : LinkRecord := ⟨10, "http://huge.example/", none, none, none, none, false⟩

/-- A world serving a 200 response with a terabyte body. -/
def envC9 : Env := ⟨.http 200 bigBody emptyDoc, .transErr, true, true, emptyDoc⟩

/-- Claim C9, counterexample: a 200 response with a terabyte body is
classified as a success by the fetch layer — there is no size cap and no
oversized-body failure class — and the pipeline completes on it without any
error. -/
theorem crawl_C9_cex :
    fetchPage (.http 200 bigBody emptyDoc) = .ok (bigBody, emptyDoc) ∧
    (process_link envC9 linkC9).raised = false ∧
    (process_link envC9 linkC9).row.downloaded = true :=
  ⟨rfl, rfl, rfl⟩

/-- Claim C9, amended: the fetch layer imposes no body-size cap — a response
of any size whose status passes `raise_for_status` is fully buffered and
classified as a success; the only failure classifications are transport
errors and 4xx/5xx statuses. -/
theorem crawl_C9 (st sz st2 sz2 : Nat) (doc doc2 : HtmlDoc)
    (h : ¬(400 ≤ st ∧ st < 600)) (h2 : 400 ≤ st2 ∧ st2 < 600) :
    fetchPage (.http st sz doc) = .ok (sz, doc) ∧
    fetchPage (.http st2 sz2 doc2) = .error (.httpStatus st2) ∧
    fetchPage .transErr = .error .transport := by
  refine ⟨?_, ?_, rfl⟩ <;> simp [fetchPage, raise_for_status, h, h2]

/-- Witness for the amended C9 at a terabyte 200 response and a 404. -/
theorem crawl_C9_witness :
    fetchPage (.http 200 bigBody emptyDoc) = .ok (bigBody, emptyDoc) ∧
    fetchPage (.http 404 9 emptyDoc) = .error (.httpStatus 404) ∧
    fetchPage .transErr = .error .transport :=
  crawl_C9 200 bigBody 404 9 emptyDoc emptyDoc (by decide) (by decide)

/-- Claim C10: the fallback's normalization is a forced resize to exactly
600×315 — independent of the screenshot's own dimensions — so every image
the fallback commits has exactly those dimensions. -/
theorem crawl_C10 (env : Env) (link : LinkRecord)
    (hl : env.launchOk = true) (hn : env.navOk = true) :
    (∀ src : Img, pilResize 600 315 src = ⟨600, 315⟩) ∧
    (capture_screenshot_async env link).row.image = some ⟨600, 315⟩ ∧
    (∀ ev ∈ (capture_screenshot_async env link).saves,
      ev.state.image = some ⟨600, 315⟩) := by
  refine ⟨fun _ => rfl, ?_, ?_⟩ <;>
    simp [capture_screenshot_async, hl, hn, shotCommit, pilResize]

/-- A pending record for the C10 witness. -/
def linkC10 : LinkRecord :=
  ⟨11, "http://shot.example/", none, none, none, none, false⟩

/-- A world where the fallback navigation succeeds. -/
def envC10 : Env := ⟨.http 200 10 emptyDoc, .transErr, true, true, emptyDoc⟩

/-- Witness for C10 at the concrete C10 world. -/
theorem crawl_C10_witness :
    (capture_screenshot_async envC10 linkC10).row.image = some ⟨600, 315⟩ :=
  (crawl_C10 envC10 linkC10 rfl rfl).2.1
